import Mathlib

/-!
Shallow embedding of `fabliip/releases.py`, a Capistrano-style release
deployment helper.  Remote shell commands (`run`) are modelled by their
effect on explicit filesystem state; fallible commands return `Except`.
Python exceptions raised by pure code (list indexing) are modelled with
an explicit exception type.
-/

namespace Fabliip

/-- Python exceptions relevant to this module.  `list.__getitem__` raises
`IndexError` on an out-of-range index; `KeyError` is what the source's
`except KeyError:` clause catches. -/
inductive PyExc where
  | indexError
  | keyError
deriving DecidableEq, Repr

/-- A remote command that exits non-zero makes Fabric's `run` abort the
task; we collapse all such failures into one error value. -/
inductive RunFail where
  | runFailed
deriving DecidableEq, Repr

/-- The Fabric `env` configuration consumed by the module: roots, target
hosts and the shared-files mapping (`target -> link_name` pairs, in the
iteration order of `env.shared_files.iteritems()`). -/
structure Config where
  releases_root : String
  shared_root : String
  project_root : String
  hosts : List String
  shared_files : List (String × String)

/-- `os.path.join(a, b)` for two components, as CPython's posixpath
implements it: an absolute `b` discards `a`; otherwise a `/` separator is
inserted unless `a` is empty or already ends with `/`. -/
def pyJoin (a b : String) : String :=
  if b.data.head? = some '/' then b
  else if a = "" ∨ a.data.getLast? = some '/' then a ++ b
  else a ++ "/" ++ b

/-- Lexicographic (code-point by code-point) comparison of character
lists, Python's `<=` on strings. -/
def charListLe : List Char → List Char → Bool
  | [], _ => true
  | _ :: _, [] => false
  | a :: as, b :: bs => if a < b then true else if b < a then false else charListLe as bs

/-- Python's `<=` on strings: lexicographic by Unicode code point. -/
def pyLe (a b : String) : Bool :=
  charListLe a.data b.data

/-- The ordering relation Python's `sorted` uses on strings. -/
def PyLeRel (a b : String) : Prop :=
  pyLe a b = true

instance : DecidableRel PyLeRel := fun a b => by
  unfold PyLeRel; infer_instance

theorem charListLe_total (as bs : List Char) :
    charListLe as bs = true ∨ charListLe bs as = true := by
  induction as generalizing bs with
  | nil => left; rfl
  | cons a as ih =>
    cases bs with
    | nil => right; rfl
    | cons b bs =>
      by_cases hab : a < b
      · left; simp [charListLe, hab]
      · by_cases hba : b < a
        · right; simp [charListLe, hba, hab]
        · rcases ih bs with h | h
          · left; simp [charListLe, hab, hba, h]
          · right; simp [charListLe, hab, hba, h]

theorem charListLe_trans (as bs cs : List Char)
    (h₁ : charListLe as bs = true) (h₂ : charListLe bs cs = true) :
    charListLe as cs = true := by
  induction as generalizing bs cs with
  | nil => rfl
  | cons a as ih =>
    cases bs with
    | nil => simp [charListLe] at h₁
    | cons b bs =>
      cases cs with
      | nil => simp [charListLe] at h₂
      | cons c cs =>
        by_cases hab : a < b
        · by_cases hbc : b < c
          · simp [charListLe, lt_trans hab hbc]
          · by_cases hcb : c < b
            · simp [charListLe, hbc, hcb] at h₂
            · have : b = c := le_antisymm (le_of_not_lt hcb) (le_of_not_lt hbc)
              subst this
              simp [charListLe, hab]
        · by_cases hba : b < a
          · simp [charListLe, hab, hba] at h₁
          · have hab' : a = b := le_antisymm (le_of_not_lt hba) (le_of_not_lt hab)
            subst hab'
            by_cases hbc : a < c
            · simp [charListLe, hbc]
            · by_cases hcb : c < a
              · simp [charListLe, hbc, hcb] at h₂
              · simp only [charListLe, if_neg hab, if_neg hbc, if_neg hcb] at h₁ h₂ ⊢
                exact ih bs cs h₁ h₂

instance : IsTotal String PyLeRel :=
  ⟨fun a b => charListLe_total a.data b.data⟩

instance : IsTrans String PyLeRel :=
  ⟨fun a b c => charListLe_trans a.data b.data c.data⟩

/-- Python's `sorted` on a list of strings: lexicographic ascending order
(a stable comparison sort; on a total preorder the multiset of elements
is preserved and the result is sorted). -/
def pySorted (l : List String) : List String :=
  List.insertionSort PyLeRel l

/-- Python's `l[:-k]` slice for a non-negative `k`: for `k = 0` the slice
is `l[:0] = []` (since `-0 == 0`), otherwise the first `len l - k`
elements. -/
def pySliceDropLast (l : List String) (k : Nat) : List String :=
  if k = 0 then [] else l.take (l.length - k)

/-- State of the deployment layout on the remote host: the directory
entries under `releases_root`, the transient `new_current` symlink
created inside `releases_root` during activation, and the `current`
symlink (its target path), which lives in the project root. -/
structure FsState where
  entries : List String
  new_current : Option String
  current : Option String
deriving DecidableEq, Repr

/-- `get_release_path`: `os.path.join(env.releases_root, release_name)`. -/
def get_release_path (cfg : Config) (release_name : String) : String :=
  pyJoin cfg.releases_root release_name

/-- `get_releases`: `sorted(ls(env.releases_root))` — the directory
entries of the releases root, sorted oldest to newest (lexicographic on
the timestamp-prefixed names). -/
def get_releases (s : FsState) : List String :=
  pySorted s.entries

/-- The releases `clean_old_releases(keep)` iterates over:
`releases[:-keep]` where `releases = get_releases()`. -/
def removed_releases (keep : Nat) (s : FsState) : List String :=
  pySliceDropLast (get_releases s) keep

/-- `clean_old_releases(keep=5)`: run `rm -rf` on the directory of every
release in `releases[:-keep]`.  Each `rm -rf` deletes the corresponding
entry of the releases root; the `current` symlink itself is not touched
(it may be left dangling). -/
def clean_old_releases (keep : Nat) (s : FsState) : FsState :=
  { s with entries := s.entries.filter (fun r => r ∉ removed_releases keep s) }

/-- `activate_release`: inside `env.releases_root`, run
`ln -s <release path> new_current` (fails if `new_current` already
exists) then `mv -Tf new_current current` (atomic rename over
`current`). -/
def activate_release (cfg : Config) (release_name : String) (s : FsState) :
    Except RunFail FsState :=
  if s.new_current.isSome then
    Except.error RunFail.runFailed
  else
    let s₁ := { s with new_current := some (get_release_path cfg release_name) }
    Except.ok { s₁ with new_current := none, current := s₁.new_current }

/-- Python's `l[-2]`: the second-to-last element, raising `IndexError`
when the list has fewer than two elements. -/
def pyIndexNeg2 (l : List String) : Except PyExc String :=
  if h : 2 ≤ l.length then
    Except.ok (l.get ⟨l.length - 2, by omega⟩)
  else
    Except.error PyExc.indexError

/-- The error message logged by `rollback` when the requested release is
not installed, including the newline-joined list of available releases. -/
def not_installed_msg (installed : List String) : String :=
  "Error: the given release is not installed on the server.\n" ++
    " Available releases:\n\n" ++ String.intercalate "\n" installed

/-- Observable outcome of a `rollback` call that returned normally:
the Python return value (`some 1` for the error returns, `none` for the
fall-through / abort paths), the error messages logged, whether the
confirmation prompt was shown, and the release passed to
`activate_release` (if the activation was reached). -/
structure RollbackResult where
  result : Option Nat
  errorLog : List String
  prompted : Bool
  activated : Option String
deriving DecidableEq, Repr

/-- The tail of `rollback` after the target release is resolved: prompt
for confirmation; any answer other than `"y"` prints "Aborting." and
returns `None`; on `"y"` call `activate_release(release_name)` and fall
through (returning `None`). -/
def rollback_confirm (release_name confirm : String) : RollbackResult :=
  if confirm ≠ "y" then
    { result := none, errorLog := [], prompted := true, activated := none }
  else
    { result := none, errorLog := [], prompted := true, activated := some release_name }

/-- `rollback(release_name=None)`.  `listing` is what `ls` returns for the
releases root, `confirm` the answer typed at the prompt.

When `release_name` is `None` the source evaluates
`installed_releases[-2]` inside `try: ... except KeyError:`; list
indexing raises `IndexError`, which the `KeyError` handler does not
catch, so with fewer than two releases the exception propagates. -/
def rollback (listing : List String) (release_name : Option String)
    (confirm : String) : Except PyExc RollbackResult :=
  let installed_releases := pySorted listing
  match release_name with
  | none =>
    match pyIndexNeg2 installed_releases with
    | Except.ok target => Except.ok (rollback_confirm target confirm)
    | Except.error PyExc.keyError =>
      Except.ok { result := some 1,
                  errorLog := ["Error: no release to rollback to."],
                  prompted := false, activated := none }
    | Except.error e => Except.error e
  | some rn =>
    if rn ∈ installed_releases then
      Except.ok (rollback_confirm rn confirm)
    else
      Except.ok { result := some 1,
                  errorLog := [not_installed_msg installed_releases],
                  prompted := false, activated := none }

/-- A directory of symlinks (the shared root), as a map from entry name
to symlink target. -/
def SharedMap : Type := String → Option String

/-- Point-update of a `SharedMap`. -/
def SharedMap.set (s : SharedMap) (k : String) (v : Option String) : SharedMap :=
  fun n => if n = k then v else s n

/-- One iteration of the `link_shared_files` loop for the pair
`(target, link_name)` with the fresh name `tmp_link_name` drawn from
`uuid.uuid4()`: `ln -s <release_path/target> <tmp>` (fails if `tmp`
already exists) then `mv -Tf <tmp> <link_name>` (fails if source and
destination are the same file; otherwise atomically renames, leaving
`link_name` pointing where `tmp` pointed and removing `tmp`). -/
def link_one (release_path : String) (s : SharedMap) (tmp : String)
    (pair : String × String) : Except RunFail SharedMap :=
  if (s tmp).isSome then
    Except.error RunFail.runFailed
  else if tmp = pair.2 then
    Except.error RunFail.runFailed
  else
    let s₁ := s.set tmp (some (pyJoin release_path pair.1))
    Except.ok ((s₁.set pair.2 (s₁ tmp)).set tmp none)

/-- The `link_shared_files` loop over the remaining
`(target, link_name)` pairs; `tmps i` is the `uuid.uuid4()` value drawn
at the `i`-th iteration. -/
def link_loop (release_path : String) (pairs : List (String × String))
    (tmps : Nat → String) (i : Nat) (s : SharedMap) : Except RunFail SharedMap :=
  match pairs with
  | [] => Except.ok s
  | p :: ps =>
    match link_one release_path s (tmps i) p with
    | Except.ok s' => link_loop release_path ps tmps (i + 1) s'
    | Except.error e => Except.error e

/-- `link_shared_files(release_name)`: inside `env.shared_root`, for
every `(target, link_name)` in `env.shared_files.iteritems()`, symlink a
fresh uuid name to `os.path.join(release_path, target)` and atomically
rename it over `link_name`. -/
def link_shared_files (cfg : Config) (release_name : String)
    (tmps : Nat → String) (s : SharedMap) : Except RunFail SharedMap :=
  link_loop (get_release_path cfg release_name) cfg.shared_files tmps 0 s

/-!
## Theorems

One theorem per claim of the specification, with concrete-input
witnesses for the theorems that carry hypotheses.
-/

/-- A concrete configuration used by the witnesses: the layout from the
module's docstring. -/
def cfg0 : Config :=
  { releases_root := "/home/proj/releases"
    shared_root := "/home/proj/shared"
    project_root := "/home/proj"
    hosts := ["deploy.example.com"]
    shared_files := [("config.yml", "config.yml")] }

/-- Claim C3: over releases `[a,b,c,d,e]` (oldest to newest),
`clean_old_releases(keep=2)` removes exactly `{a,b,c}` and leaves
`{d,e}`, and an immediately repeated call removes nothing further. -/
theorem clean_old_releases_keep_two :
    removed_releases 2 ⟨["a", "b", "c", "d", "e"], none, none⟩ = ["a", "b", "c"] ∧
    clean_old_releases 2 ⟨["a", "b", "c", "d", "e"], none, none⟩ =
      ⟨["d", "e"], none, none⟩ ∧
    removed_releases 2 (clean_old_releases 2 ⟨["a", "b", "c", "d", "e"], none, none⟩) = [] ∧
    clean_old_releases 2 (clean_old_releases 2 ⟨["a", "b", "c", "d", "e"], none, none⟩) =
      clean_old_releases 2 ⟨["a", "b", "c", "d", "e"], none, none⟩ := by
  decide

/-- Claim C10: with `keep = 0` the slice `releases[:-0]` is `releases[:0]`,
the empty list, so `clean_old_releases(keep=0)` removes no release at
all (rather than removing everything, as "keep the 0 most recent" would
suggest). -/
theorem clean_old_releases_keep_zero (s : FsState) (_hne : s.entries ≠ []) :
    removed_releases 0 s = [] ∧ clean_old_releases 0 s = s := by
  have hrem : removed_releases 0 s = [] := rfl
  refine ⟨hrem, ?_⟩
  unfold clean_old_releases
  rw [hrem]
  simp

/-- Witness for C10 at a one-release state. -/
theorem clean_old_releases_keep_zero_witness :
    (⟨["a"], none, none⟩ : FsState).entries ≠ [] ∧
    (removed_releases 0 ⟨["a"], none, none⟩ = [] ∧
      clean_old_releases 0 ⟨["a"], none, none⟩ = ⟨["a"], none, none⟩) :=
  ⟨by decide, clean_old_releases_keep_zero ⟨["a"], none, none⟩ (by decide)⟩

/-- Claim C7: `get_releases` returns the directory entries of the
releases root sorted ascending (lexicographically by code point), and on
the entries `["20240101000000_a","20240301000000_c","20240201000000_b"]`
it returns
`["20240101000000_a","20240201000000_b","20240301000000_c"]`. -/
theorem get_releases_sorted :
    (∀ s : FsState, (get_releases s).Sorted PyLeRel ∧
      List.Perm s.entries (get_releases s)) ∧
    get_releases ⟨["20240101000000_a", "20240301000000_c", "20240201000000_b"],
        none, none⟩ =
      ["20240101000000_a", "20240201000000_b", "20240301000000_c"] := by
  refine ⟨fun s => ⟨List.sorted_insertionSort PyLeRel s.entries,
    (List.perm_insertionSort PyLeRel s.entries).symm⟩, ?_⟩
  decide

/-- Claim C2 (code bug): `clean_old_releases` does not protect the
release pointed to by the `current` symlink.  With releases `["a","b"]`,
`current` pointing at release `a` and `keep = 1`, the call removes
release `a` even though it is the active one. -/
theorem clean_old_releases_removes_current :
    (⟨["a", "b"], none, some (get_release_path cfg0 "a")⟩ : FsState).current =
      some (get_release_path cfg0 "a") ∧
    removed_releases 1 ⟨["a", "b"], none, some (get_release_path cfg0 "a")⟩ = ["a"] ∧
    (clean_old_releases 1
        ⟨["a", "b"], none, some (get_release_path cfg0 "a")⟩).entries = ["b"] := by
  decide

/-- Claim C9: `get_release_path` is the pure join of the configured
releases root with the release name: whenever the release name is not
absolute and the root is a non-empty path without a trailing slash, the
result is `releases_root ++ "/" ++ release_name`, for every
configuration and name (no filesystem state is consulted). -/
theorem get_release_path_join (cfg : Config) (rn : String)
    (h₁ : rn.data.head? ≠ some '/')
    (h₂ : cfg.releases_root ≠ "")
    (h₃ : cfg.releases_root.data.getLast? ≠ some '/') :
    get_release_path cfg rn = cfg.releases_root ++ "/" ++ rn := by
  unfold get_release_path pyJoin
  rw [if_neg h₁, if_neg]
  rintro (h | h)
  · exact h₂ h
  · exact h₃ h

/-- Witness for C9: the path of release `20240101000000_a` under
`cfg0`. -/
theorem get_release_path_join_witness :
    ("20240101000000_a" : String).data.head? ≠ some '/' ∧
    get_release_path cfg0 "20240101000000_a" =
      cfg0.releases_root ++ "/" ++ "20240101000000_a" :=
  ⟨by decide,
    get_release_path_join cfg0 "20240101000000_a" (by decide) (by decide) (by decide)⟩

theorem pySorted_length (l : List String) : (pySorted l).length = l.length :=
  (List.perm_insertionSort PyLeRel l).length_eq

/-- Claim C1 (code bug): with fewer than two installed releases,
`rollback()` does not log "no release to rollback to" and return 1: the
`IndexError` raised by `installed_releases[-2]` is not caught by the
source's `except KeyError:` clause and propagates to the caller. -/
theorem rollback_no_previous_raises (listing : List String) (confirm : String)
    (h : listing.length < 2) :
    rollback listing none confirm = Except.error PyExc.indexError := by
  have hlen : ¬ 2 ≤ (pySorted listing).length := by
    rw [pySorted_length]; omega
  simp only [rollback, pyIndexNeg2]
  rw [dif_neg hlen]

/-- Witness for C1: a single installed release. -/
theorem rollback_no_previous_raises_witness :
    ([ "20140830151210_1.2.2" ] : List String).length < 2 ∧
    rollback ["20140830151210_1.2.2"] none "y" = Except.error PyExc.indexError :=
  ⟨by decide, rollback_no_previous_raises ["20140830151210_1.2.2"] "y" (by decide)⟩

/-- Claim C5: `rollback(X)` for a release `X` that is not installed logs
the "release not installed" message together with the newline-joined
list of available releases, returns 1, is never prompted for
confirmation and activates nothing. -/
theorem rollback_not_installed (listing : List String) (X confirm : String)
    (h : X ∉ pySorted listing) :
    rollback listing (some X) confirm =
      Except.ok { result := some 1,
                  errorLog := [not_installed_msg (pySorted listing)],
                  prompted := false, activated := none } := by
  simp only [rollback]
  rw [if_neg h]

/-- Witness for C5: requesting a release that is not installed. -/
theorem rollback_not_installed_witness :
    "x" ∉ pySorted ["a", "b"] ∧
    rollback ["a", "b"] (some "x") "y" =
      Except.ok { result := some 1,
                  errorLog := [not_installed_msg (pySorted ["a", "b"])],
                  prompted := false, activated := none } :=
  ⟨by decide, rollback_not_installed ["a", "b"] "x" "y" (by decide)⟩

/-- Claim C6: for an installed rollback target, the outcome of
`rollback` is decided by the confirmation answer: any answer other than
the exact string `"y"` yields the neutral `None` result with no error
logged and no activation, and `activate_release` is reached exactly when
the answer is `"y"`. -/
theorem rollback_confirm_gate (listing : List String) (rn confirm : String)
    (r : RollbackResult)
    (hmem : rn ∈ pySorted listing)
    (hr : rollback listing (some rn) confirm = Except.ok r) :
    r = if confirm = "y" then
          { result := none, errorLog := [], prompted := true, activated := some rn }
        else
          { result := none, errorLog := [], prompted := true, activated := none } := by
  simp only [rollback] at hr
  rw [if_pos hmem] at hr
  unfold rollback_confirm at hr
  by_cases hc : confirm = "y"
  · rw [if_pos hc]
    rw [if_neg (fun hne => hne hc)] at hr
    exact (Except.ok.injEq _ _).mp hr.symm
  · rw [if_neg hc]
    rw [if_pos hc] at hr
    exact (Except.ok.injEq _ _).mp hr.symm

/-- Witness for C6: declining the confirmation with `"n"` aborts with
the neutral result and no activation. -/
theorem rollback_confirm_gate_witness :
    "a" ∈ pySorted ["a", "b"] ∧
    ({ result := none, errorLog := [], prompted := true,
       activated := none } : RollbackResult) =
      (if ("n" : String) = "y" then
        { result := none, errorLog := [], prompted := true, activated := some "a" }
      else
        { result := none, errorLog := [], prompted := true, activated := none }) :=
  ⟨by decide, rollback_confirm_gate ["a", "b"] "a" "n" _ (by decide) rfl⟩

/-- Claim C4: whenever `activate_release(R)` completes, the `current`
symlink points at `get_release_path(R)` and the transient `new_current`
link is gone, regardless of whether `current` previously existed and of
where it pointed (the definition performs the swap by creating
`new_current` and renaming it over `current`). -/
theorem activate_release_sets_current (cfg : Config) (rn : String) (s s' : FsState)
    (h : activate_release cfg rn s = Except.ok s') :
    s'.current = some (get_release_path cfg rn) ∧ s'.new_current = none := by
  unfold activate_release at h
  by_cases hnc : s.new_current.isSome
  · rw [if_pos hnc] at h
    exact absurd h (by simp)
  · rw [if_neg hnc] at h
    have := (Except.ok.injEq _ _).mp h
    subst this
    exact ⟨rfl, rfl⟩

/-- Witness for C4: activating release `b` while `current` points at
release `a`. -/
theorem activate_release_sets_current_witness :
    (⟨["a", "b"], none, some (get_release_path cfg0 "b")⟩ : FsState).current =
      some (get_release_path cfg0 "b") ∧
    (⟨["a", "b"], none, some (get_release_path cfg0 "b")⟩ : FsState).new_current =
      none :=
  activate_release_sets_current cfg0 "b"
    ⟨["a", "b"], none, some (get_release_path cfg0 "a")⟩ _ rfl

/-- The net effect of a successful `link_shared_files` run on the shared
root: each `(target, link_name)` pair, in order, repoints `link_name` at
the target path inside the release directory. -/
def applyPairs (release_path : String) :
    List (String × String) → SharedMap → SharedMap
  | [], s => s
  | p :: ps, s =>
    applyPairs release_path ps (s.set p.2 (some (pyJoin release_path p.1)))

theorem SharedMap.set_apply (s : SharedMap) (k : String) (v : Option String)
    (n : String) : s.set k v n = if n = k then v else s n :=
  rfl

theorem link_one_ok {rp : String} {s : SharedMap} {tmp : String}
    {p : String × String} {s' : SharedMap}
    (h : link_one rp s tmp p = Except.ok s') :
    s' = s.set p.2 (some (pyJoin rp p.1)) := by
  unfold link_one at h
  by_cases h₁ : (s tmp).isSome
  · rw [if_pos h₁] at h
    exact absurd h (by simp)
  · rw [if_neg h₁] at h
    by_cases h₂ : tmp = p.2
    · rw [if_pos h₂] at h
      exact absurd h (by simp)
    · rw [if_neg h₂] at h
      have hs' := (Except.ok.injEq _ _).mp h
      rw [← hs']
      funext n
      simp only [SharedMap.set_apply]
      by_cases hn₁ : n = tmp
      · rw [if_pos hn₁, if_neg (fun hc => h₂ (hn₁.symm.trans hc))]
        rw [hn₁]
        exact (Option.not_isSome_iff_eq_none.mp h₁).symm
      · rw [if_neg hn₁]
        by_cases hn₂ : n = p.2
        · rw [if_pos hn₂, if_pos hn₂]; simp
        · rw [if_neg hn₂, if_neg hn₂, if_neg hn₁]

theorem link_loop_ok {rp : String} {ps : List (String × String)}
    {tmps : Nat → String} {i : Nat} {s s' : SharedMap}
    (h : link_loop rp ps tmps i s = Except.ok s') :
    s' = applyPairs rp ps s := by
  induction ps generalizing i s with
  | nil =>
    unfold link_loop at h
    exact ((Except.ok.injEq _ _).mp h).symm
  | cons p ps ih =>
    unfold link_loop at h
    cases hlo : link_one rp s (tmps i) p with
    | error e => rw [hlo] at h; exact absurd h (by simp)
    | ok s₁ =>
      rw [hlo] at h
      have := link_one_ok hlo
      subst this
      exact ih h

theorem applyPairs_not_mem {rp : String} {ps : List (String × String)}
    {s : SharedMap} {n : String} (h : n ∉ ps.map Prod.snd) :
    applyPairs rp ps s n = s n := by
  induction ps generalizing s with
  | nil => rfl
  | cons p ps ih =>
    rw [List.map_cons, List.mem_cons, not_or] at h
    unfold applyPairs
    rw [ih h.2]
    unfold SharedMap.set
    rw [if_neg h.1]

theorem applyPairs_congr {rp : String} {ps : List (String × String)}
    {s t : SharedMap}
    (h : ∀ n, n ∉ ps.map Prod.snd → s n = t n) :
    applyPairs rp ps s = applyPairs rp ps t := by
  induction ps generalizing s t with
  | nil => funext n; exact h n (by simp)
  | cons p ps ih =>
    unfold applyPairs
    apply ih
    intro n hn
    unfold SharedMap.set
    by_cases hnp : n = p.2
    · rw [if_pos hnp, if_pos hnp]
    · rw [if_neg hnp, if_neg hnp]
      refine h n ?_
      rw [List.map_cons, List.mem_cons, not_or]
      exact ⟨hnp, hn⟩

theorem applyPairs_idem (rp : String) (ps : List (String × String))
    (s : SharedMap) :
    applyPairs rp ps (applyPairs rp ps s) = applyPairs rp ps s := by
  exact applyPairs_congr (fun n hn => applyPairs_not_mem hn)

/-- Claim C8: `link_shared_files` is idempotent on the shared root: if a
run from state `s` succeeds with final state `s₁` and a second run from
`s₁` succeeds with final state `s₂` (with whatever fresh uuid names),
then `s₂ = s₁` — every shared link ends up pointing at the same final
target as after the first run. -/
theorem link_shared_files_idem (cfg : Config) (rn : String)
    (t₁ t₂ : Nat → String) (s s₁ s₂ : SharedMap)
    (h₁ : link_shared_files cfg rn t₁ s = Except.ok s₁)
    (h₂ : link_shared_files cfg rn t₂ s₁ = Except.ok s₂) :
    s₂ = s₁ := by
  unfold link_shared_files at h₁ h₂
  rw [link_loop_ok h₁, link_loop_ok h₂, link_loop_ok h₁]
  exact applyPairs_idem _ _ _

/-- First run of the C8 witness: `link_shared_files` under `cfg0` from
an empty shared root, with `tmp1` as the fresh uuid name. -/
def linkWitness₁ : SharedMap :=
  match link_shared_files cfg0 "r" (fun _ => "tmp1") (fun _ => none) with
  | Except.ok s => s
  | Except.error _ => fun _ => none

/-- Second run of the C8 witness, from the first run's final state, with
`tmp2` as the fresh uuid name. -/
def linkWitness₂ : SharedMap :=
  match link_shared_files cfg0 "r" (fun _ => "tmp2") linkWitness₁ with
  | Except.ok s => s
  | Except.error _ => fun _ => none

/-- Witness for C8: both concrete runs succeed and the second changes
nothing. -/
theorem link_shared_files_idem_witness : linkWitness₂ = linkWitness₁ :=
  link_shared_files_idem cfg0 "r" (fun _ => "tmp1") (fun _ => "tmp2")
    (fun _ => none) linkWitness₁ linkWitness₂ rfl rfl

end Fabliip
